import Mathlib

/-!
Shallow embedding of `src/available_slot_finder.py` (available-slot-finder).

Timestamps are modelled as natural numbers of seconds (Python `datetime`
objects are totally ordered and subtracted in whole seconds here; the
parser produces calendar `DateTime` records that are converted to seconds
via `toSec` at the point where the loader stores them).  The ambient clock
(`datetime.now()`) is modelled as a stream `clock : Nat → Nat` of successive
samples: sample 0 is taken at entry of `find_available_slot` (the
`strftime`/`strptime` round trip truncates to whole seconds, the identity
in this model) and sample 1 is the value produced by the `datetime.now()`
calls at the two early-return sites (at most one of them runs, exactly once).

Python exceptions are modelled with `Except PyError`.
-/

/-- Exceptions that the embedded functions can raise.  `valueError` stands for
the ValueError raised with a message naming the offending split record and the
two accepted format patterns; the message text itself is not modelled. -/
inductive PyError where
  | valueError : PyError
  | indexError : PyError
  | unboundLocal : PyError
deriving DecidableEq, Repr

/-- A parsed calendar timestamp, as produced by `datetime.strptime`. -/
structure DateTime where
  year : Nat
  month : Nat
  day : Nat
  hour : Nat
  minute : Nat
  second : Nat
deriving DecidableEq, Repr

/-- Numeric value of an ASCII digit character. -/
def dval (c : Char) : Nat := c.toNat - 48

/-- Gregorian leap-year test, as in Python `datetime`. -/
def isLeap (y : Nat) : Bool := y % 4 == 0 && (y % 100 != 0 || y % 400 == 0)

/-- Days in a month, as validated by the `datetime` constructor. -/
def daysInMonth (y m : Nat) : Nat :=
  if m = 2 then (if isLeap y then 29 else 28)
  else if m = 4 ∨ m = 6 ∨ m = 9 ∨ m = 11 then 30
  else 31

/-- Days contributed by the months before month `m` of a year. -/
def cumDays (m : Nat) (leap : Bool) : Nat :=
  (match m with
   | 1 => 0 | 2 => 31 | 3 => 59 | 4 => 90 | 5 => 120 | 6 => 151
   | 7 => 181 | 8 => 212 | 9 => 243 | 10 => 273 | 11 => 304 | 12 => 334
   | _ => 0)
  + (if leap ∧ 2 < m then 1 else 0)

/-- Leap days occurring in years `1..y`. -/
def leapCount (y : Nat) : Nat := y / 4 - y / 100 + y / 400

/-- Days elapsed from 0001-01-01 to the given civil date. -/
def daysFromCivil (y m d : Nat) : Nat :=
  365 * (y - 1) + leapCount (y - 1) + cumDays m (isLeap y) + (d - 1)

/-- Seconds elapsed from 0001-01-01 00:00:00, the order- and
difference-preserving image of a `datetime` value. -/
def toSec (d : DateTime) : Nat :=
  daysFromCivil d.year d.month d.day * 86400
    + d.hour * 3600 + d.minute * 60 + d.second

/-- Validity check performed by the `datetime` constructor after the
regular expression of `strptime` has matched (the regex already bounds
month, hour and minute; seconds 60 and 61 pass the regex but are rejected
by the constructor, raising the same ValueError). -/
def mkValid (y mo d h mi s : Nat) : Option DateTime :=
  if 1 ≤ y ∧ 1 ≤ d ∧ d ≤ daysInMonth y mo ∧ s ≤ 59 then
    some ⟨y, mo, d, h, mi, s⟩
  else none

/-- Matches the `%Y` directive: exactly four ASCII digits. -/
def parseYear : List Char → Option (Nat × List Char)
  | a :: b :: c :: d :: rest =>
    if a.isDigit ∧ b.isDigit ∧ c.isDigit ∧ d.isDigit then
      some (dval a * 1000 + dval b * 100 + dval c * 10 + dval d, rest)
    else none
  | _ => none

/-- Matches one literal character. -/
def parseLit (c : Char) : List Char → Option (List Char)
  | x :: rest => if x = c then some rest else none
  | [] => none

/-- Matches the `%m` directive (regex `1[0-2]|0[1-9]|[1-9]`). -/
def parseMonth : List Char → Option (Nat × List Char)
  | c1 :: c2 :: rest =>
    if c1 = '1' ∧ '0' ≤ c2 ∧ c2 ≤ '2' then some (10 + dval c2, rest)
    else if c1 = '0' ∧ '1' ≤ c2 ∧ c2 ≤ '9' then some (dval c2, rest)
    else if '1' ≤ c1 ∧ c1 ≤ '9' then some (dval c1, c2 :: rest)
    else none
  | [c1] => if '1' ≤ c1 ∧ c1 ≤ '9' then some (dval c1, []) else none
  | [] => none

/-- Matches the `%d` directive (regex `3[01]|[12]\d|0[1-9]|[1-9]`). -/
def parseDay : List Char → Option (Nat × List Char)
  | c1 :: c2 :: rest =>
    if c1 = '3' ∧ (c2 = '0' ∨ c2 = '1') then some (30 + dval c2, rest)
    else if (c1 = '1' ∨ c1 = '2') ∧ c2.isDigit then
      some (dval c1 * 10 + dval c2, rest)
    else if c1 = '0' ∧ '1' ≤ c2 ∧ c2 ≤ '9' then some (dval c2, rest)
    else if '1' ≤ c1 ∧ c1 ≤ '9' then some (dval c1, c2 :: rest)
    else none
  | [c1] => if '1' ≤ c1 ∧ c1 ≤ '9' then some (dval c1, []) else none
  | [] => none

/-- Matches the `%H` directive (regex `2[0-3]|[0-1]\d|\d`). -/
def parseHour : List Char → Option (Nat × List Char)
  | c1 :: c2 :: rest =>
    if c1 = '2' ∧ '0' ≤ c2 ∧ c2 ≤ '3' then some (20 + dval c2, rest)
    else if (c1 = '0' ∨ c1 = '1') ∧ c2.isDigit then
      some (dval c1 * 10 + dval c2, rest)
    else if c1.isDigit then some (dval c1, c2 :: rest)
    else none
  | [c1] => if c1.isDigit then some (dval c1, []) else none
  | [] => none

/-- Matches the `%M` directive (regex `[0-5]\d|\d`). -/
def parseMinute : List Char → Option (Nat × List Char)
  | c1 :: c2 :: rest =>
    if '0' ≤ c1 ∧ c1 ≤ '5' ∧ c2.isDigit then
      some (dval c1 * 10 + dval c2, rest)
    else if c1.isDigit then some (dval c1, c2 :: rest)
    else none
  | [c1] => if c1.isDigit then some (dval c1, []) else none
  | [] => none

/-- Matches the `%S` directive (regex `6[0-1]|[0-5]\d|\d`). -/
def parseSecond : List Char → Option (Nat × List Char)
  | c1 :: c2 :: rest =>
    if c1 = '6' ∧ (c2 = '0' ∨ c2 = '1') then some (60 + dval c2, rest)
    else if '0' ≤ c1 ∧ c1 ≤ '5' ∧ c2.isDigit then
      some (dval c1 * 10 + dval c2, rest)
    else if c1.isDigit then some (dval c1, c2 :: rest)
    else none
  | [c1] => if c1.isDigit then some (dval c1, []) else none
  | [] => none

/-- ASCII whitespace, the characters matched by the regex class to which
`strptime` turns literal whitespace in a format string. -/
def isPySpace (c : Char) : Bool :=
  c = ' ' ∨ c = '\t' ∨ c = '\n' ∨ c = '\r' ∨ c = '\x0b' ∨ c = '\x0c'

/-- Matches one or more whitespace characters (a literal blank in a
`strptime` format matches any nonempty whitespace run). -/
def parseWs : List Char → Option (List Char)
  | c :: rest => if isPySpace c then some (rest.dropWhile isPySpace) else none
  | [] => none

/-- Embedding of `datetime.strptime(s, "%Y-%m-%d %H:%M:%S")`: `some` is a
successful parse, `none` is the ValueError path (either a pattern mismatch
or a constructor rejection). -/
def strptimeFull (cs : List Char) : Option DateTime := do
  let (y, cs) ← parseYear cs
  let cs ← parseLit '-' cs
  let (mo, cs) ← parseMonth cs
  let cs ← parseLit '-' cs
  let (d, cs) ← parseDay cs
  let cs ← parseWs cs
  let (h, cs) ← parseHour cs
  let cs ← parseLit ':' cs
  let (mi, cs) ← parseMinute cs
  let cs ← parseLit ':' cs
  let (s, cs) ← parseSecond cs
  if cs = [] then mkValid y mo d h mi s else none

/-- Embedding of `datetime.strptime(s, "%Y-%m-%d")`. -/
def strptimeDate (cs : List Char) : Option DateTime := do
  let (y, cs) ← parseYear cs
  let cs ← parseLit '-' cs
  let (mo, cs) ← parseMonth cs
  let cs ← parseLit '-' cs
  let (d, cs) ← parseDay cs
  if cs = [] then mkValid y mo d 0 0 0 else none

/-- The separator of the two-part record form, the argument of
`dates.split(" - ")`. -/
def sepDash : List Char := [' ', '-', ' ']

/-- Finds the first occurrence of `sepDash` in a character list, returning
the text before it and the text after it. -/
def splitAtSep : List Char → Option (List Char × List Char)
  | [] => none
  | c :: cs =>
    if sepDash.isPrefixOf (c :: cs) then
      some ([], (c :: cs).drop sepDash.length)
    else
      match splitAtSep cs with
      | some (pre, post) => some (c :: pre, post)
      | none => none

/-- Splits at every occurrence of the separator, left to right; `fuel`
bounds the recursion and is harmless because each occurrence consumes at
least the separator, so `cs.length` steps always suffice. -/
def pySplitAux : Nat → List Char → List (List Char)
  | 0, cs => [cs]
  | fuel + 1, cs =>
    match splitAtSep cs with
    | none => [cs]
    | some (pre, post) => pre :: pySplitAux fuel post

/-- Embedding of `dates.split(" - ")`: Python `str.split` with an explicit
separator, splitting at each non-overlapping occurrence left to right and
returning the string itself when the separator does not occur. -/
def pySplit (cs : List Char) : List (List Char) := pySplitAux cs.length cs

/-- Embedding of the `except` branch of `validate_date_range_format`: parse
the first split part as a bare date and widen it to the whole day
(`replace` to 00:00:00 and 23:59:59); a second failure raises the
ValueError naming the record and the two accepted patterns. -/
def wholeDayFallback (p0 : List Char) : Except PyError (DateTime × DateTime) :=
  match strptimeDate p0 with
  | some d =>
    .ok ({ d with hour := 0, minute := 0, second := 0 },
         { d with hour := 23, minute := 59, second := 59 })
  | none => .error .valueError

/-- Embedding of `validate_date_range_format`.  The source indexes
`date_string[1]` inside the first `try` block, so a record whose first
split part already matches the full timestamp pattern but which has no
second part raises an uncaught IndexError rather than the guarded
ValueError. -/
def validate_date_range_format (dates : String) :
    Except PyError (DateTime × DateTime) :=
  match pySplit dates.toList with
  | [] => .error .indexError
  | p0 :: rest =>
    match strptimeFull p0 with
    | some sdt =>
      match rest with
      | [] => .error .indexError
      | p1 :: _ =>
        match strptimeFull p1 with
        | some edt => .ok (sdt, edt)
        | none => wholeDayFallback p0
    | none => wholeDayFallback p0

/-- Embedding of `line.strip(chr(10))`: remove newline characters from both
ends of the line before validation. -/
def pyStripNL (s : String) : String :=
  let isNL : Char → Bool := fun c => c = '\n'
  String.mk (((s.toList.dropWhile isNL).reverse.dropWhile isNL).reverse)

/-- Embedding of the per-file loop of `get_calendar_date_ranges`: each line
is stripped and validated, and the parsed pair is appended exactly when its
end is strictly after `now` (seconds of the loader's `datetime.now()`
sample); the first malformed line aborts the whole file with its error. -/
def parseLines (now : Nat) : List String → Except PyError (List (Nat × Nat))
  | [] => .ok []
  | l :: ls =>
    match validate_date_range_format (pyStripNL l) with
    | .error err => .error err
    | .ok (sdt, edt) =>
      match parseLines now ls with
      | .error err => .error err
      | .ok rest =>
        if now < toSec edt then .ok ((toSec sdt, toSec edt) :: rest)
        else .ok rest

/-- Embedding of `get_calendar_date_ranges`: the calendar map is built one
file at a time in input order, file contents standing in for the opened
files. -/
def get_calendar_date_ranges (now : Nat) :
    List (String × List String) →
      Except PyError (List (String × List (Nat × Nat)))
  | [] => .ok []
  | (f, ls) :: rest =>
    match parseLines now ls with
    | .error err => .error err
    | .ok rs =>
      match get_calendar_date_ranges now rest with
      | .error err => .error err
      | .ok m => .ok ((f, rs) :: m)

/-- Embedding of `itertools.combinations` over the keys of the calendar
map (entries stand for keys, each key carrying its ranges): subsequences of
length `k` in lexicographic position order. -/
def combinationsList : Nat → List α → List (List α)
  | 0, _ => [[]]
  | _ + 1, [] => []
  | k + 1, x :: xs =>
    (combinationsList k xs).map (x :: ·) ++ combinationsList (k + 1) xs

/-- Inserts a range into a list sorted by range start, before the first
element with an equal or later start; the resulting insertion sort is
stable, matching `sorted(ranges, key=itemgetter(0))`. -/
def insertRange (x : Nat × Nat) : List (Nat × Nat) → List (Nat × Nat)
  | [] => [x]
  | y :: ys => if y.fst < x.fst then y :: insertRange x ys else x :: y :: ys

/-- Stable sort of the pooled ranges by start. -/
def sortByStart : List (Nat × Nat) → List (Nat × Nat)
  | [] => []
  | x :: xs => insertRange x (sortByStart xs)

/-- Pooled, sorted busy ranges of one combination: the flattening of each
member calendar's ranges in combination order, then the stable sort by
start. -/
def pooled (combo : List (String × List (Nat × Nat))) : List (Nat × Nat) :=
  sortByStart (combo.flatMap Prod.snd)

/-- Embedding of `max(date_ranges, key=itemgetter(1))[1]`, the latest end
in the pool (only called on nonempty pools). -/
def maxEnd : List (Nat × Nat) → Nat
  | [] => 0
  | [x] => x.snd
  | x :: y :: rest => max x.snd (maxEnd (y :: rest))

/-- Python list indexing: a negative index counts from the end of the list.
The default is unreachable in the executions modelled here (the scan only
produces indices from -1 to the list length minus one). -/
def pyGet (rs : List (Nat × Nat)) (idx : Int) : Nat × Nat :=
  if 0 ≤ idx then rs.getD idx.toNat (0, 0)
  else rs.getD (rs.length - (-idx).toNat) (0, 0)

/-- Embedding of the `while i < (len(date_ranges) - 2)` scan of
`find_available_slot`.  `fuel` is the number of remaining iterations
(`rs.length - 1` at entry, since the loop body runs for `i = 0` up to
`rs.length - 2`), `i` the loop counter after its increment, `shift` the
signed index shift, `avail` the current `available_time_slot`.  A recorded
slot returns immediately (the `break`). -/
def scanLoop (rs : List (Nat × Nat)) (dur : Int) :
    Nat → Nat → Int → Nat → Nat
  | 0, _, _, avail => avail
  | fuel + 1, i, shift, avail =>
    let A := pyGet rs ((i : Int) + shift)
    let B := pyGet rs ((i : Int) + 1)
    if A.fst < B.fst ∧ B.snd < A.snd then
      -- next range contained in the shifted previous one: decrement shift,
      -- then fall through to the gap check with the decremented shift
      let P := pyGet rs ((i : Int) + (shift - 1))
      if 60 * dur < (B.fst : Int) - (P.snd : Int) ∧ P.snd < avail then P.snd
      else scanLoop rs dur fuel (i + 1) (shift - 1) avail
    else if B.fst < A.snd ∧ A.snd < B.snd then
      -- ranges intersect: reset shift and continue without a gap check
      scanLoop rs dur fuel (i + 1) 0 avail
    else
      -- no overlap: reset shift, then the gap check against rs[i]
      let P := pyGet rs ((i : Int) + 0)
      if 60 * dur < (B.fst : Int) - (P.snd : Int) ∧ P.snd < avail then P.snd
      else scanLoop rs dur fuel (i + 1) 0 avail

/-- The value `available_time_slot` holds for one combination after its
scan finishes: the scan is seeded with the latest end of the pool and
either keeps it or is overwritten by the recorded gap start. -/
def comboAnswer (dur : Int) (combo : List (String × List (Nat × Nat))) : Nat :=
  let rs := pooled combo
  scanLoop rs dur (rs.length - 1) 0 0 (maxEnd rs)

/-- Embedding of the combination loop of `find_available_slot`.  `now0` is
the entry snapshot, `now1` the clock sample produced by the `datetime.now()`
calls at the two early-return sites.  `acc` is the `available_time_slot`
variable surviving from the previous combination: reading it after an
empty loop is the UnboundLocalError of the source, and after the loop the
final value gains one second. -/
def runCombos (dur : Int) (now0 now1 : Nat) :
    List (List (String × List (Nat × Nat))) → Option Nat → Except PyError Nat
  | [], none => .error .unboundLocal
  | [], some avail => .ok (avail + 1)
  | combo :: rest, _ =>
    match pooled combo with
    | [] => .ok now1
    | r :: _ =>
      if now0 < r.fst ∧ 60 * dur < (r.fst : Int) - (now0 : Int) then .ok now1
      else runCombos dur now0 now1 rest (some (comboAnswer dur combo))

/-- Embedding of `find_available_slot`.  The first clock sample is the
entry snapshot (`strftime`/`strptime` truncation is the identity on whole
seconds); the second sample is returned by the early-return sites. -/
def find_available_slot (clock : Nat → Nat)
    (calendar_date_ranges : List (String × List (Nat × Nat)))
    (duration_in_minutes : Int) (minimum_people : Nat) : Except PyError Nat :=
  runCombos duration_in_minutes (clock 0) (clock 1)
    (combinationsList minimum_people calendar_date_ranges) none

/-- Whether a combination triggers one of the two immediate `now` returns:
an empty pool, or an earliest start after `now` with a gap strictly longer
than the required duration. -/
def combReturnsNow (now0 : Nat) (dur : Int)
    (combo : List (String × List (Nat × Nat))) : Bool :=
  match pooled combo with
  | [] => true
  | r :: _ =>
    decide (now0 < r.fst) && decide (60 * dur < (r.fst : Int) - (now0 : Int))

lemma runCombos_nil_some (dur : Int) (n0 n1 a : Nat) :
    runCombos dur n0 n1 [] (some a) = .ok (a + 1) := rfl

lemma runCombos_cons (dur : Int) (n0 n1 : Nat) (combo : List (String × List (Nat × Nat)))
    (rest : List (List (String × List (Nat × Nat)))) (acc : Option Nat) :
    runCombos dur n0 n1 (combo :: rest) acc =
      match pooled combo with
      | [] => .ok n1
      | r :: _ =>
        if n0 < r.fst ∧ 60 * dur < (r.fst : Int) - (n0 : Int) then .ok n1
        else runCombos dur n0 n1 rest (some (comboAnswer dur combo)) := rfl

lemma runCombos_step (dur : Int) (n0 n1 : Nat) (combo : List (String × List (Nat × Nat)))
    (rest : List (List (String × List (Nat × Nat)))) (acc : Option Nat)
    (r : Nat × Nat) (tl : List (Nat × Nat)) (hp : pooled combo = r :: tl)
    (hc : ¬(n0 < r.fst ∧ 60 * dur < (r.fst : Int) - (n0 : Int))) :
    runCombos dur n0 n1 (combo :: rest) acc =
      runCombos dur n0 n1 rest (some (comboAnswer dur combo)) := by
  rw [runCombos_cons, hp]
  simp only [hc, if_false]

lemma combReturnsNow_false_elim {n0 : Nat} {dur : Int}
    {combo : List (String × List (Nat × Nat))}
    (h : combReturnsNow n0 dur combo = false) :
    ∃ r tl, pooled combo = r :: tl ∧
      ¬(n0 < r.fst ∧ 60 * dur < (r.fst : Int) - (n0 : Int)) := by
  unfold combReturnsNow at h
  rcases hp : pooled combo with _ | ⟨r, tl⟩
  · rw [hp] at h; simp at h
  · rw [hp] at h
    refine ⟨r, tl, rfl, ?_⟩
    rcases Bool.and_eq_false_iff.mp h with h1 | h1 <;>
      simp only [decide_eq_false_iff_not] at h1 <;> tauto

lemma runCombos_last (dur : Int) (n0 n1 : Nat) :
    ∀ (combos : List (List (String × List (Nat × Nat)))) (acc : Option Nat)
      (c : List (String × List (Nat × Nat))),
      combos.getLast? = some c →
      (∀ c' ∈ combos, combReturnsNow n0 dur c' = false) →
      runCombos dur n0 n1 combos acc = .ok (comboAnswer dur c + 1)
  | [], _, _, h, _ => by simp at h
  | [combo], acc, c, h, hall => by
    have hc : combo = c := by simpa using h
    subst hc
    obtain ⟨r, tl, hp, hcond⟩ :=
      combReturnsNow_false_elim (hall combo (by simp))
    rw [runCombos_step dur n0 n1 combo [] acc r tl hp hcond]
    exact runCombos_nil_some dur n0 n1 _
  | combo :: c2 :: rest, acc, c, h, hall => by
    obtain ⟨r, tl, hp, hcond⟩ :=
      combReturnsNow_false_elim (hall combo (by simp))
    rw [runCombos_step dur n0 n1 combo (c2 :: rest) acc r tl hp hcond]
    exact runCombos_last dur n0 n1 (c2 :: rest) _ c (by simpa using h)
      (fun c' hc' => hall c' (List.mem_cons_of_mem _ hc'))

lemma combinationsList_eq_nil {α : Type} :
    ∀ (k : Nat) (xs : List α), xs.length < k → combinationsList k xs = []
  | 0, _, h => by simp at h
  | k + 1, [], _ => rfl
  | k + 1, x :: xs, h => by
    have h1 : xs.length < k := by simpa using h
    have h2 : xs.length < k + 1 := Nat.lt_succ_of_lt h1
    simp [combinationsList, combinationsList_eq_nil k xs h1,
      combinationsList_eq_nil (k + 1) xs h2]

deriving instance DecidableEq for Except

lemma parseLines_ok_elim (now : Nat) :
    ∀ (ls : List String) (rs : List (Nat × Nat)), parseLines now ls = .ok rs →
      (∀ p ∈ rs, now < p.2) ∧
      (∀ p ∈ rs, ∃ l ∈ ls, ∃ d1 d2,
        validate_date_range_format (pyStripNL l) = .ok (d1, d2) ∧
        p = (toSec d1, toSec d2)) ∧
      (∀ l ∈ ls, ∀ d1 d2,
        validate_date_range_format (pyStripNL l) = .ok (d1, d2) →
        now < toSec d2 → (toSec d1, toSec d2) ∈ rs)
  | [], rs, h => by
    simp only [parseLines] at h
    cases h
    exact ⟨by simp, by simp, by simp⟩
  | l :: ls, rs, h => by
    simp only [parseLines] at h
    split at h
    · cases h
    · rename_i vres sdt edt hv
      split at h
      · cases h
      · rename_i rres rest hr
        obtain ⟨ih1, ih2, ih3⟩ := parseLines_ok_elim now ls rest hr
        by_cases hnow : now < toSec edt
        · rw [if_pos hnow] at h
          cases h
          refine ⟨?_, ?_, ?_⟩
          · intro p hp
            rcases List.mem_cons.mp hp with hp | hp
            · subst hp; exact hnow
            · exact ih1 p hp
          · intro p hp
            rcases List.mem_cons.mp hp with hp | hp
            · exact ⟨l, by simp, sdt, edt, hv, hp⟩
            · obtain ⟨l', hl', d1, d2, hvv, hpp⟩ := ih2 p hp
              exact ⟨l', List.mem_cons_of_mem _ hl', d1, d2, hvv, hpp⟩
          · intro l' hl' d1 d2 hvv hnoww
            rcases List.mem_cons.mp hl' with hl' | hl'
            · subst hl'
              rw [hv] at hvv
              obtain ⟨rfl, rfl⟩ : sdt = d1 ∧ edt = d2 := by
                have := Except.ok.inj hvv
                exact ⟨congrArg Prod.fst this, congrArg Prod.snd this⟩
              exact List.mem_cons_self _ _
            · exact List.mem_cons_of_mem _ (ih3 l' hl' d1 d2 hvv hnoww)
        · rw [if_neg hnow] at h
          cases h
          refine ⟨ih1, ?_, ?_⟩
          · intro p hp
            obtain ⟨l', hl', d1, d2, hvv, hpp⟩ := ih2 p hp
            exact ⟨l', List.mem_cons_of_mem _ hl', d1, d2, hvv, hpp⟩
          · intro l' hl' d1 d2 hvv hnoww
            rcases List.mem_cons.mp hl' with hl' | hl'
            · subst hl'
              rw [hv] at hvv
              obtain ⟨rfl, rfl⟩ : sdt = d1 ∧ edt = d2 := by
                have := Except.ok.inj hvv
                exact ⟨congrArg Prod.fst this, congrArg Prod.snd this⟩
              exact absurd hnoww hnow
            · exact ih3 l' hl' d1 d2 hvv hnoww

lemma get_calendar_date_ranges_mem (now : Nat) :
    ∀ (files : List (String × List String))
      (m : List (String × List (Nat × Nat))) (f : String)
      (rs : List (Nat × Nat)),
      get_calendar_date_ranges now files = .ok m → (f, rs) ∈ m →
      ∃ L, (f, L) ∈ files ∧ parseLines now L = .ok rs
  | [], m, f, rs, h, hm => by
    simp only [get_calendar_date_ranges] at h
    cases h
    simp at hm
  | (f', ls) :: rest, m, f, rs, h, hm => by
    simp only [get_calendar_date_ranges] at h
    split at h
    · cases h
    · rename_i pres rs' hps
      split at h
      · cases h
      · rename_i gres m' hg
        cases h
        rcases List.mem_cons.mp hm with hm | hm
        · obtain ⟨rfl, rfl⟩ : f = f' ∧ rs = rs' := by
            exact ⟨congrArg Prod.fst hm, congrArg Prod.snd hm⟩
          exact ⟨ls, by simp, hps⟩
        · obtain ⟨L, hL, hp⟩ :=
            get_calendar_date_ranges_mem now rest m' f rs hg hm
          exact ⟨L, List.mem_cons_of_mem _ hL, hp⟩

/-- C1 counterexample: with calendars a (busy 100–200) and b (busy 100–300),
headcount 1, duration 30 and now 150, the first combination in enumeration
order, calendar a alone, yields its fallback answer 201, but the engine
returns 301, the answer of the later combination b: the final return sits
after the combination loop and `available_time_slot` is overwritten by
every later combination, so the first-yielding combination does not
determine the result. -/
theorem c1_counterexample :
    find_available_slot (fun _ => 150)
        [("a", [(100, 200)]), ("b", [(100, 300)])] 30 1 ≠
      .ok (comboAnswer 30 [("a", [(100, 200)])] + 1) ∧
    find_available_slot (fun _ => 150)
        [("a", [(100, 200)]), ("b", [(100, 300)])] 30 1 =
      .ok (comboAnswer 30 [("b", [(100, 300)])] + 1) := by decide

/-- C1 amended: an immediate-now return (empty pool, or a sufficient gap
before the pool's earliest start) in any combination still short-circuits,
but otherwise the result is one second past the scan value of the LAST
combination in enumeration order; earlier combinations' interior-gap and
fallback values are overwritten and do not influence the result. -/
theorem c1_last_combination_wins (clock : Nat → Nat)
    (cals : List (String × List (Nat × Nat))) (dur : Int) (k : Nat)
    (c : List (String × List (Nat × Nat)))
    (hlast : (combinationsList k cals).getLast? = some c)
    (hnone : ∀ c' ∈ combinationsList k cals,
      combReturnsNow (clock 0) dur c' = false) :
    find_available_slot clock cals dur k = .ok (comboAnswer dur c + 1) :=
  runCombos_last dur (clock 0) (clock 1) _ none c hlast hnone

/-- Witness for C1 amended at the counterexample input: the last
combination, calendar b alone, determines the result. -/
theorem c1_last_combination_wins_witness :
    find_available_slot (fun _ => 150)
        [("a", [(100, 200)]), ("b", [(100, 300)])] 30 1 =
      .ok (comboAnswer 30 [("b", [(100, 300)])] + 1) :=
  c1_last_combination_wins (fun _ => 150)
    [("a", [(100, 200)]), ("b", [(100, 300)])] 30 1
    [("b", [(100, 300)])] (by decide) (by decide)

/-- C2 counterexample: pool 09:00–09:30 and 10:00–10:30 (seconds of day
32400–34200 and 36000–37800), headcount 1, duration 30, now 09:00: the
30-minute gap at 09:30 is NOT taken (the comparison is strict, 30 > 30
fails), so the engine does not report 09:30:00 (= 34200). -/
theorem c2_counterexample :
    find_available_slot (fun _ => 32400)
      [("cal", [(32400, 34200), (36000, 37800)])] 30 1 ≠ .ok 34200 := by decide

/-- C2 amended: an interior gap qualifies exactly when its length strictly
exceeds the required duration; with duration 30 the 30-minute gap fails
and the result is the fallback 10:30:01 (= 37801), while with duration 29
the gap qualifies and the result is 09:30:01 (= 34201), one second past
the earlier interval's end (the one-second addition applies to gap answers
as well as to the fallback). -/
theorem c2_strict_gap_qualification :
    find_available_slot (fun _ => 32400)
        [("cal", [(32400, 34200), (36000, 37800)])] 30 1 = .ok 37801 ∧
      find_available_slot (fun _ => 32400)
        [("cal", [(32400, 34200), (36000, 37800)])] 29 1 = .ok 34201 := by
  decide

/-- C3: the record consisting of a single full timestamp matches neither
accepted pattern, yet `validate_date_range_format` raises an uncaught
IndexError rather than the guarded ValueError, because `date_string[1]` is
evaluated inside the first `try` block after `date_string[0]` has already
parsed. -/
theorem c3_uncaught_index_error :
    validate_date_range_format "2022-05-14 12:00:00" =
      .error .indexError := by decide

/-- C4 counterexample: two runs on the same busy map, duration, headcount
and the same entry snapshot (both clocks read 100 at sample 0) return
different timestamps (100 versus 200), because the immediate-now return
re-samples the clock (`return datetime.now()`) instead of returning the
entry snapshot. -/
theorem c4_counterexample :
    (fun _ : Nat => 100) 0 = (fun n : Nat => 100 + 100 * n) 0 ∧
    find_available_slot (fun _ => 100)
      [("a", ([] : List (Nat × Nat)))] 30 1 = .ok 100 ∧
    find_available_slot (fun n => 100 + 100 * n)
      [("a", ([] : List (Nat × Nat)))] 30 1 = .ok 200 := by decide

/-- C4 amended: the search is a deterministic function of the busy map,
the duration, the headcount and the two clock samples it draws - the entry
snapshot and the sample taken by the immediate-now return sites; no other
clock reads occur. -/
theorem c4_deterministic_in_two_samples (c c' : Nat → Nat)
    (cals : List (String × List (Nat × Nat))) (dur : Int) (k : Nat)
    (h0 : c 0 = c' 0) (h1 : c 1 = c' 1) :
    find_available_slot c cals dur k = find_available_slot c' cals dur k := by
  unfold find_available_slot
  rw [h0, h1]

/-- Witness for C4 amended: two syntactically different clocks agreeing on
samples 0 and 1 give the same result. -/
theorem c4_deterministic_in_two_samples_witness :
    find_available_slot (fun _ => 5) [("a", [(100, 200)])] 30 1 =
      find_available_slot (fun n => 5 + 0 * n) [("a", [(100, 200)])] 30 1 :=
  c4_deterministic_in_two_samples (fun _ => 5) (fun n => 5 + 0 * n)
    [("a", [(100, 200)])] 30 1 rfl rfl

/-- C5: on the pool 10:00–12:00, 10:30–11:00 (strictly nested) and
12:30–14:00 (seconds of day 36000–43200, 37800–39600, 45000–50400), with
duration 30 and now 10:00, the engine returns 39601 = 11:00:01, one second
past the NESTED interval's end, although 11:00 lies inside the busy block
10:00–12:00: after the containment skip, the next iteration's shift reset
computes the gap against the nested interval, contradicting the claim that
a nested interval never causes a spurious gap at its end. -/
theorem c5_spurious_gap_at_nested_end :
    find_available_slot (fun _ => 36000)
      [("a", [(36000, 43200), (37800, 39600), (45000, 50400)])] 30 1 =
      .ok 39601 := by decide

/-- C6: calendars a (busy 10:00–10:30) and b (busy 10:15–10:45) in seconds
of day, headcount 2, duration 15: for every now from 09:45:00 on (so that
the immediate-now return does not fire), no interior gap qualifies and the
result is 10:45:01 (= 38701), one second past the latest busy end of the
pooled list. -/
theorem c6_fallback_one_second_past_latest_end (now : Nat)
    (h : 35100 ≤ now) :
    find_available_slot (fun _ => now)
      [("a", [(36000, 37800)]), ("b", [(36900, 38700)])] 15 2 =
      .ok 38701 := by
  show runCombos 15 now now
    (combinationsList 2 [("a", [(36000, 37800)]), ("b", [(36900, 38700)])])
    none = .ok 38701
  have hcomb : combinationsList 2
      [("a", [(36000, 37800)]), ("b", [(36900, 38700)])] =
      [[("a", [(36000, 37800)]), ("b", [(36900, 38700)])]] := rfl
  rw [hcomb]
  rw [runCombos_step 15 now now
    [("a", [(36000, 37800)]), ("b", [(36900, 38700)])] [] none
    (36000, 37800) [(36900, 38700)] rfl ?hc]
  case hc =>
    rintro ⟨h1, h2⟩
    omega
  rw [runCombos_nil_some]
  decide

/-- Witness for C6 at now = 10:00:00. -/
theorem c6_fallback_witness :
    (35100 : Nat) ≤ 36000 ∧
      find_available_slot (fun _ => 36000)
        [("a", [(36000, 37800)]), ("b", [(36900, 38700)])] 15 2 =
        .ok 38701 :=
  ⟨by decide, c6_fallback_one_second_past_latest_end 36000 (by decide)⟩

/-- C7 counterexample: a single calendar busy 1800–3600, duration 30, now
0: the gap between now and the earliest start is exactly the required
duration (30 minutes), which the claim says suffices for reporting now,
but the strict comparison fails and the engine returns the fallback 3601
instead of now = 0. -/
theorem c7_counterexample :
    find_available_slot (fun _ => 0) [("a", [(1800, 3600)])] 30 1 =
        .ok 3601 ∧
      find_available_slot (fun _ => 0) [("a", [(1800, 3600)])] 30 1 ≠
        .ok 0 := by decide

/-- C7 amended: when the combination under consideration has a nonempty
pool whose earliest interval starts after now with a gap STRICTLY longer
than the required duration, the engine returns the now sample immediately,
regardless of the remaining combinations. -/
theorem c7_report_now_on_strict_gap (dur : Int) (now0 now1 : Nat)
    (combo : List (String × List (Nat × Nat)))
    (rest : List (List (String × List (Nat × Nat)))) (acc : Option Nat)
    (r : Nat × Nat) (tl : List (Nat × Nat))
    (hp : pooled combo = r :: tl) (h1 : now0 < r.fst)
    (h2 : 60 * dur < (r.fst : Int) - (now0 : Int)) :
    runCombos dur now0 now1 (combo :: rest) acc = .ok now1 := by
  rw [runCombos_cons, hp]
  simp [h1, h2]

/-- Witness for C7 amended: busy 2000–3000, now 0, duration 30 (gap 2000 s
> 1800 s) reports the now sample (7 here, distinguishing it from the entry
snapshot 0). -/
theorem c7_report_now_witness :
    runCombos 30 0 7 [[("a", [(2000, 3000)])]] none = .ok 7 :=
  c7_report_now_on_strict_gap 30 0 7 [("a", [(2000, 3000)])] [] none
    (2000, 3000) [] rfl (by decide) (by decide)

/-- C8: with a positive headcount, an empty calendar map or a headcount
exceeding the calendar count leaves the combination iterator empty, the
loop body never runs, and reading `available_time_slot` at the final
return raises UnboundLocalError: an error reaches the caller rather than a
silently produced timestamp. -/
theorem c8_no_combination_is_error (clock : Nat → Nat)
    (cals : List (String × List (Nat × Nat))) (dur : Int) (k : Nat)
    (hk : 1 ≤ k) (h : cals = [] ∨ cals.length < k) :
    find_available_slot clock cals dur k = .error .unboundLocal := by
  have hlen : cals.length < k := by
    rcases h with rfl | h
    · simpa using hk
    · exact h
  show runCombos dur (clock 0) (clock 1) (combinationsList k cals) none =
    .error .unboundLocal
  rw [combinationsList_eq_nil k cals hlen]
  rfl

/-- Witness for C8: one calendar, headcount 2. -/
theorem c8_no_combination_witness :
    find_available_slot (fun _ => 0) [("a", [(0, 10)])] 30 2 =
      .error .unboundLocal :=
  c8_no_combination_is_error (fun _ => 0) [("a", [(0, 10)])] 30 2
    (by decide) (Or.inr (by decide))

/-- C9: every calendar of a successfully built map comes from an input
file, all stored intervals end strictly after now, each stored interval is
the unclipped image of a parsed line, and every parsed line whose end is
strictly after now is stored; intervals ending at or before now are
exactly the ones discarded. -/
theorem c9_future_filter (now : Nat) (files : List (String × List String))
    (m : List (String × List (Nat × Nat))) (f : String)
    (rs : List (Nat × Nat))
    (hg : get_calendar_date_ranges now files = .ok m)
    (hm : (f, rs) ∈ m) :
    ∃ L, (f, L) ∈ files ∧
      (∀ p ∈ rs, now < p.2) ∧
      (∀ p ∈ rs, ∃ l ∈ L, ∃ d1 d2,
        validate_date_range_format (pyStripNL l) = .ok (d1, d2) ∧
        p = (toSec d1, toSec d2)) ∧
      (∀ l ∈ L, ∀ d1 d2,
        validate_date_range_format (pyStripNL l) = .ok (d1, d2) →
        now < toSec d2 → (toSec d1, toSec d2) ∈ rs) := by
  obtain ⟨L, hL, hp⟩ := get_calendar_date_ranges_mem now files m f rs hg hm
  obtain ⟨h1, h2, h3⟩ := parseLines_ok_elim now L rs hp
  exact ⟨L, hL, h1, h2, h3⟩

/-- Witness for C9: one calendar file with a future range (kept unclipped)
and a past whole-day record (discarded), with now at 2025-01-01 00:00:00. -/
theorem c9_future_filter_witness :
    ∃ L, ("cal.txt", L) ∈
        [("cal.txt",
          ["2030-01-01 10:00:00 - 2030-01-01 11:00:00", "2020-01-01"])] ∧
      (∀ p ∈ [(toSec ⟨2030, 1, 1, 10, 0, 0⟩, toSec ⟨2030, 1, 1, 11, 0, 0⟩)],
        toSec ⟨2025, 1, 1, 0, 0, 0⟩ < p.2) ∧
      (∀ p ∈ [(toSec ⟨2030, 1, 1, 10, 0, 0⟩, toSec ⟨2030, 1, 1, 11, 0, 0⟩)],
        ∃ l ∈ L, ∃ d1 d2,
          validate_date_range_format (pyStripNL l) = .ok (d1, d2) ∧
          p = (toSec d1, toSec d2)) ∧
      (∀ l ∈ L, ∀ d1 d2,
        validate_date_range_format (pyStripNL l) = .ok (d1, d2) →
        toSec ⟨2025, 1, 1, 0, 0, 0⟩ < toSec d2 →
        (toSec d1, toSec d2) ∈
          [(toSec ⟨2030, 1, 1, 10, 0, 0⟩, toSec ⟨2030, 1, 1, 11, 0, 0⟩)]) :=
  c9_future_filter (toSec ⟨2025, 1, 1, 0, 0, 0⟩)
    [("cal.txt",
      ["2030-01-01 10:00:00 - 2030-01-01 11:00:00", "2020-01-01"])]
    [("cal.txt",
      [(toSec ⟨2030, 1, 1, 10, 0, 0⟩, toSec ⟨2030, 1, 1, 11, 0, 0⟩)])]
    "cal.txt"
    [(toSec ⟨2030, 1, 1, 10, 0, 0⟩, toSec ⟨2030, 1, 1, 11, 0, 0⟩)]
    (by decide) (by decide)

/-- C10: every record splitting into at least three parts on the
separator, with the first two parts both matching the full timestamp
pattern, is accepted with the first two parsed timestamps and everything
after the second part silently ignored. -/
theorem c10_extra_parts_ignored (s : String) (S E X : List Char)
    (rest : List (List Char)) (v1 v2 : DateTime)
    (hsplit : pySplit s.toList = S :: E :: X :: rest)
    (hS : strptimeFull S = some v1) (hE : strptimeFull E = some v2) :
    validate_date_range_format s = .ok (v1, v2) := by
  unfold validate_date_range_format
  rw [hsplit]
  simp only [hS, hE]

/-- Witness for C10: a three-part record with trailing text is accepted,
and the trailing part is ignored. -/
theorem c10_extra_parts_witness :
    validate_date_range_format
        "2022-05-14 12:00:00 - 2022-05-15 13:30:05 - note" =
      .ok (⟨2022, 5, 14, 12, 0, 0⟩, ⟨2022, 5, 15, 13, 30, 5⟩) :=
  c10_extra_parts_ignored
    "2022-05-14 12:00:00 - 2022-05-15 13:30:05 - note"
    "2022-05-14 12:00:00".toList "2022-05-15 13:30:05".toList
    "note".toList [] ⟨2022, 5, 14, 12, 0, 0⟩ ⟨2022, 5, 15, 13, 30, 5⟩
    (by decide) (by decide) (by decide)
